import Mathlib

/-!
Verification of the `gostaticanalysis/codegen` repository.

The development shallowly embeds the two Go source files that carry the
behavioural contract:

* `codegen.go` — the descriptor adapter (`Generator.ToAnalyzer`) and the
  `Pass` convenience printers (`Print`, `Printf`, `Println`);
* `codegentest/codegentest.go` — the test harness (`Run`, `Golden`/`golden`).

Machine-word issues do not arise (all data is strings, slices, maps and
function values), so slices become `List`, maps become association lists,
Go `nil`-able values become `Option`, and pointers become indices into an
explicit heap (`List`) where aliasing is observable.
-/

namespace Codegen

/-! ## Model of `fmt` arguments and rendering

`Pass.Print`, `Pass.Printf` and `Pass.Println` forward to `fmt.Fprint`,
`fmt.Fprintf` and `fmt.Fprintln`.  Arguments (`...interface{}`) are modelled
by a small universe of string and integer operands; the render functions
mirror the documented `fmt` behaviour: `Fprint` adds a space between two
operands only when neither is a string, `Fprintln` separates all operands by
spaces and appends one newline, `Fprintf` expands verbs (`%v`, `%s`, `%d`,
`%%`, with Go's `%!`-style notices for missing, extra or mistyped operands).
-/

/-- Operand universe for the variadic `...interface{}` parameters. -/
inductive FmtArg where
  | str (s : String) : FmtArg
  | int (n : Int) : FmtArg
deriving DecidableEq

/-- Default (`%v`) rendering of one operand. -/
def argString : FmtArg → String
  | FmtArg.str s => s
  | FmtArg.int n => toString n

/-- Whether the operand is a string (controls spacing in `fmt.Fprint`). -/
def argIsString : FmtArg → Bool
  | FmtArg.str _ => true
  | FmtArg.int _ => false

/-- Go type name of an operand, used in `%!`-style notices. -/
def argTypeName : FmtArg → String
  | FmtArg.str _ => "string"
  | FmtArg.int _ => "int"

/-- `type=value` rendering used by `fmt` in `%!` notices. -/
def argExtra (a : FmtArg) : String := argTypeName a ++ "=" ++ argString a

/-- Rendering of `fmt.Fprint`: operands in default format, a space between
two operands only when neither is a string. -/
def renderPrint : List FmtArg → String
  | [] => ""
  | [a] => argString a
  | a :: b :: rest =>
    argString a ++ (if argIsString a || argIsString b then "" else " ")
      ++ renderPrint (b :: rest)

/-- Rendering of `fmt.Fprintln`: spaces between all operands, one trailing
newline. -/
def renderPrintln (args : List FmtArg) : String :=
  String.intercalate " " (args.map argString) ++ "\n"

/-- Verb expansion for `fmt.Fprintf`; mistyped operands produce Go's
`%!verb(type=value)` notice. -/
def verbRender : Char → FmtArg → String
  | 'v', a => argString a
  | 's', FmtArg.str s => s
  | 'd', FmtArg.int n => toString n
  | c, a => "%!" ++ c.toString ++ "(" ++ argExtra a ++ ")"

/-- Format-string interpreter for `fmt.Fprintf` over the character list of
the format, mirroring Go's treatment of `%%`, missing operands
(`%!v(MISSING)`), extra operands (`%!(EXTRA ...)`) and a trailing bare `%`
(`%!(NOVERB)`). -/
def fprintfAux : List Char → List FmtArg → String
  | [], [] => ""
  | [], a :: rest =>
    "%!(EXTRA " ++ String.intercalate ", " ((a :: rest).map argExtra) ++ ")"
  | ['%'], _ => "%!(NOVERB)"
  | '%' :: '%' :: cs, args => "%" ++ fprintfAux cs args
  | '%' :: c :: cs, [] => "%!" ++ c.toString ++ "(MISSING)" ++ fprintfAux cs []
  | '%' :: c :: cs, a :: args => verbRender c a ++ fprintfAux cs args
  | c :: cs, args => c.toString ++ fprintfAux cs args

/-- Rendering of `fmt.Fprintf format args`. -/
def renderPrintf (format : String) (args : List FmtArg) : String :=
  fprintfAux format.toList args

/-! ## Model of `io.Writer`

An `io.Writer` is a byte sink whose `Write` may stop short with an error.
`WState` records the bytes successfully written so far and an optional
remaining capacity (`errAt = some k`: the writer accepts `k` more bytes and
then fails, modelling a sink that errors mid-stream; `errAt = none`: the
writer always succeeds, as `bytes.Buffer` does).  `wwrite` returns the new
writer state, the count of bytes actually written, and the write error, the
triple a Go `Write` call observably produces. -/

/-- State of a byte sink: bytes accepted so far, and optional remaining
capacity before the sink starts failing. -/
structure WState where
  content : List Char
  errAt : Option Nat
deriving DecidableEq

instance : Inhabited WState := ⟨⟨[], Option.none⟩⟩

/-- One `Write` call on the sink. -/
def wwrite (w : WState) (s : List Char) : WState × Nat × Option String :=
  match w.errAt with
  | Option.none => (⟨w.content ++ s, Option.none⟩, s.length, Option.none)
  | Option.some k =>
    if s.length ≤ k then
      (⟨w.content ++ s, Option.some (k - s.length)⟩, s.length, Option.none)
    else
      (⟨w.content ++ s.take k, Option.some 0⟩, k, Option.some "short write")

/-- `fmt.Fprint w args`: renders the operands and issues one `Write` of the
rendered bytes. -/
def fprint (w : WState) (args : List FmtArg) : WState × Nat × Option String :=
  wwrite w (renderPrint args).toList

/-- `fmt.Fprintf w format args`. -/
def fprintf (w : WState) (format : String) (args : List FmtArg) :
    WState × Nat × Option String :=
  wwrite w (renderPrintf format args).toList

/-- `fmt.Fprintln w args`. -/
def fprintln (w : WState) (args : List FmtArg) : WState × Nat × Option String :=
  wwrite w (renderPrintln args).toList

/-! ## `codegen.Pass` and `codegen.Generator` (codegen.go)

Opaque engine-supplied handles (`*token.FileSet`, `[]*ast.File`, type
information, the `ResultOf` map, the two fact-import functions) are modelled
as `Nat` tokens: the adapter only moves them around, so identity is all the
claims need.  `Pass.Generator` is a pointer into a generator heap
(`List Generator`); `Pass.Output` holds the writer value. -/

/-- `codegen.Pass`, field for field after `codegen.go`; handles are opaque
`Nat` tokens, `generator` is a pointer into a generator heap. -/
structure Pass where
  generator : Nat
  fset : Nat
  files : Nat
  otherFiles : Nat
  pkg : Nat
  typesInfo : Nat
  typesSizes : Nat
  resultOf : Nat
  output : WState
  importObjectFact : Nat
  importPackageFact : Nat
deriving DecidableEq

/-- `codegen.Generator`: name, doc, flags (opaque handle), run callback,
`RunDespiteErrors`, and `Requires` as pointers into an analyzer heap. -/
structure Generator where
  name : String
  doc : String
  flags : Nat
  run : Pass → Option String
  runDespiteErrors : Bool
  requires : List Nat

instance : Inhabited Generator :=
  ⟨⟨"", "", 0, fun _ => Option.none, false, []⟩⟩

/-- `pass.Print(a...)`, a wrapper of `fmt.Fprint` with `pass.Output`
(codegen.go line 129). -/
def Pass.Print (pass : Pass) (a : List FmtArg) : WState × Nat × Option String :=
  fprint pass.output a

/-- `pass.Printf(format, a...)`, a wrapper of `fmt.Fprintf` with
`pass.Output` (codegen.go line 134). -/
def Pass.Printf (pass : Pass) (format : String) (a : List FmtArg) :
    WState × Nat × Option String :=
  fprintf pass.output format a

/-- `pass.Println(a...)`, a wrapper of `fmt.Fprintln` with `pass.Output`
(codegen.go line 139). -/
def Pass.Println (pass : Pass) (a : List FmtArg) : WState × Nat × Option String :=
  fprintln pass.output a

/-! ## `analysis.Analyzer` and `Generator.ToAnalyzer`

The engine delivers diagnostics through `pass.Report`; to make diagnostics
observable the report callback is modelled as a state transformer on a
diagnostic log (`List String`).  An analyzer's `Run` takes the engine pass
and the current log and returns the final log together with the
`(interface{}, error)` pair, modelled `Option Nat × Option String`. -/

/-- `analysis.Pass`: the engine-supplied per-unit fields (opaque handles)
plus the `Report` diagnostic callback, modelled as a transformer of the
diagnostic log. -/
structure APass where
  fset : Nat
  files : Nat
  otherFiles : Nat
  pkg : Nat
  typesInfo : Nat
  typesSizes : Nat
  resultOf : Nat
  importObjectFact : Nat
  importPackageFact : Nat
  report : String → List String → List String

/-- `analysis.Analyzer`: name, doc, run callback, `RunDespiteErrors`, and
`Requires` as pointers into an analyzer heap. -/
structure Analyzer where
  name : String
  doc : String
  run : APass → List String → List String × Option Nat × Option String
  runDespiteErrors : Bool
  requires : List Nat

instance : Inhabited Analyzer :=
  ⟨⟨"", "", fun _ l => (l, Option.none, Option.none), false, []⟩⟩

/-- Run callback of an analyzer whose observable behaviour is given by `b`:
on a pass it reports each diagnostic `b` produces through `pass.report` and
returns `b`'s result value and error.  This is how a well-behaved analyzer
uses the write-only `pass.Report` hook. -/
def mkRun (b : APass → List String × Option Nat × Option String) :
    APass → List String → List String × Option Nat × Option String :=
  fun pass l =>
    let r := b pass
    (r.1.foldl (fun acc d => pass.report d acc) l, r.2.1, r.2.2)

/-- Report callback the engine installs by default: append the diagnostic to
the log (it becomes user-visible). -/
def engineReport : String → List String → List String :=
  fun d l => l ++ [d]

/-- `(*Generator).ToAnalyzer(output)` (codegen.go lines 54-87).

The Go loop

  for i := range requires \x7b
      a := *g.Requires[i] // copy
      a.Run = func(pass *analysis.Pass) (interface\x7b\x7d, error) \x7b
          pass.Report = func(analysis.Diagnostic) \x7b\x7d
          return g.Requires[i].Run(pass)
      \x7d
      requires[i] = &a
  \x7d

makes a shallow copy of each prerequisite and replaces its run callback by a
closure.  The closure captures the loop variable `i` itself — the module
predates Go 1.22, whose per-iteration loop variables changed this — so when
the engine later invokes any of the wrapped callbacks, `i` holds its final
value `len(g.Requires)-1`.  The embedding reproduces this: every copy's run
delegates to the original prerequisite at index `n-1`, with the pass's
report callback replaced by a no-op.

The Go copies are fresh allocations pointed to by the returned `Requires`
slice; the embedding appends them to the analyzer heap and returns the new
heap together with the converted analyzer. -/
def toAnalyzer (h : List Analyzer) (gh : List Generator) (gp : Nat)
    (output : WState) : List Analyzer × Analyzer :=
  let g := gh.getD gp default
  let n := g.requires.length
  let wrappedRun : APass → List String → List String × Option Nat × Option String :=
    fun pass l =>
      (h.getD (g.requires.getD (n - 1) 0) default).run
        { pass with report := fun _ l2 => l2 } l
  let copies := (List.range n).map
    (fun j => { h.getD (g.requires.getD j 0) default with run := wrappedRun })
  let mainRun : APass → List String → List String × Option Nat × Option String :=
    fun pass l =>
      let gpass : Pass :=
        { generator := gp, fset := pass.fset, files := pass.files,
          otherFiles := pass.otherFiles, pkg := pass.pkg,
          typesInfo := pass.typesInfo, typesSizes := pass.typesSizes,
          resultOf := pass.resultOf, output := output,
          importObjectFact := pass.importObjectFact,
          importPackageFact := pass.importPackageFact }
      (l, Option.none, g.run gpass)
  (h ++ copies,
   { name := g.name, doc := g.doc, run := mainRun,
     runDespiteErrors := g.runDespiteErrors,
     requires := (List.range n).map (fun j => h.length + j) })

/-! ### Concrete fixture for the dependency-wrapping claims -/

/-- Prerequisite analyzer `A`: reports one diagnostic, returns value `1`. -/
def reqA : Analyzer :=
  { name := "a", doc := "", runDespiteErrors := false, requires := [],
    run := mkRun (fun _ => (["diagA"], Option.some 1, Option.none)) }

/-- Prerequisite analyzer `B`: reports one diagnostic, returns value `2`. -/
def reqB : Analyzer :=
  { name := "b", doc := "", runDespiteErrors := false, requires := [],
    run := mkRun (fun _ => (["diagB"], Option.some 2, Option.none)) }

/-- Generator with the two prerequisites `A` (heap index 0) and `B` (heap
index 1). -/
def genAB : Generator :=
  { name := "g", doc := "d", flags := 0, run := fun _ => Option.none,
    runDespiteErrors := false, requires := [0, 1] }

/-- Engine pass used in the concrete runs: opaque handles are zero, the
report callback is the engine's appending one. -/
def demoPass : APass :=
  { fset := 0, files := 0, otherFiles := 0, pkg := 0, typesInfo := 0,
    typesSizes := 0, resultOf := 0, importObjectFact := 0,
    importPackageFact := 0, report := engineReport }

/-- Concrete generator pass with an error-free output sink. -/
def printDemoPass : Pass :=
  { generator := 0, fset := 0, files := 0, otherFiles := 0, pkg := 0,
    typesInfo := 0, typesSizes := 0, resultOf := 0, output := default,
    importObjectFact := 0, importPackageFact := 0 }

end Codegen

namespace Codegentest

/-! ## `codegentest.Run` (codegentest/codegentest.go lines 39-81)

`codegentest.go` compiles against the revision of `codegen.Generator` that
carries an `Output func(*types.Package) io.Writer` field consumed by a
zero-argument `ToAnalyzer` (lines 41, 44 and 54 read and write `g.Output`
and call `g.ToAnalyzer()`); the harness-side generator is modelled with that
field.  Writers are pointers (`Nat` indices) into a writer heap
(`List String` of accumulated buffer contents), so the aliasing between the
`outputs` map, `io.MultiWriter` and the `Result` values is observable.

The engine entry point `analysistest.Run` is an external black box; per the
spec (§2, §4.1-4.2) it executes the converted descriptor once per
compilation unit in order, obtaining that unit's output sink from the
descriptor's sink factory and letting the generator write its emitted text
to it, and returns per-unit syntax/type data, facts and error.  The
embedding takes the engine-returned units and the per-unit emitted text as
parameters and replays exactly the sink wiring of lines 40-52. -/

/-- `*types.Package`: identity plus import path. -/
structure Pkg where
  id : Nat
  path : String
deriving DecidableEq

instance : Inhabited Pkg := ⟨⟨0, ""⟩⟩

/-- One per-unit record returned by the engine (`analysistest.Run`): the
pass fields the harness copies (opaque handles), the recorded facts, and
the per-unit error. -/
structure EngineUnit where
  pkg : Pkg
  fset : Nat
  files : Nat
  otherFiles : Nat
  typesInfo : Nat
  typesSizes : Nat
  resultOf : Nat
  importObjectFact : Nat
  importPackageFact : Nat
  facts : Nat
  err : Option String
deriving DecidableEq

instance : Inhabited EngineUnit :=
  ⟨⟨default, 0, 0, 0, 0, 0, 0, 0, 0, 0, Option.none⟩⟩

/-- Output-sink selection of a generator: `noOutput` models a nil `Output`
field, `outputFn f` an externally supplied sink factory (`f pkg` is the
caller-owned writer for `pkg`), and `captureWrap orig` the wrapper closure
that `Run` installs on its private copy (lines 44-52). -/
inductive OutputSel where
  | noOutput : OutputSel
  | outputFn (f : Pkg → Nat) : OutputSel
  | captureWrap (orig : OutputSel) : OutputSel

/-- Harness-side `codegen.Generator` (the revision with the `Output` sink
factory field used by `codegentest.go`). -/
structure Generator where
  name : String
  doc : String
  runDespiteErrors : Bool
  output : OutputSel

instance : Inhabited Generator := ⟨⟨"", "", false, OutputSel.noOutput⟩⟩

/-- Append `s` to the writer at index `i` of the writer heap. -/
def heapWrite (wh : List String) (i : Nat) (s : String) : List String :=
  wh.set i (wh.getD i "" ++ s)

/-- One call of the wrapper closure `Run` installs (lines 44-52), with
captured original factory `orig`, on package `pkg`: allocates the fresh
capture buffer (`var buf bytes.Buffer`, fresh index `wh.length`); if `orig`
is nil the buffer is recorded in the `outputs` map and is the sole sink;
otherwise the sink is `io.MultiWriter(orig pkg, buf)` — and, as in the
source, no `outputs` entry is recorded in that branch.  Returns the grown
heap, the optional `outputs` map entry, and the list of writer indices the
unit's output is written to.  (The `captureWrap` case cannot arise for the
captured `outputFunc`; it recurses for totality.) -/
def wrapAlloc (wh : List String) (orig : OutputSel) (pkg : Pkg) :
    List String × Option Nat × List Nat :=
  match orig with
  | OutputSel.noOutput => (wh ++ [""], Option.some wh.length, [wh.length])
  | OutputSel.outputFn f => (wh ++ [""], Option.none, [f pkg, wh.length])
  | OutputSel.captureWrap o => wrapAlloc wh o pkg

/-- Go map access `outputs[pkg]` (zero value `nil` when absent). -/
def lookupPkg (l : List (Pkg × Nat)) (p : Pkg) : Option Nat :=
  (l.find? (fun e => decide (e.1 = p))).map (fun e => e.2)

/-- `codegen.Pass` as rebuilt by the harness (lines 58-70): the generator is
the harness's private copy, `output` is the Go map access `outputs[pkg]`
(`Option`: `nil` when the map has no entry). -/
structure HPass where
  generator : Generator
  fset : Nat
  files : Nat
  otherFiles : Nat
  pkg : Pkg
  typesInfo : Nat
  typesSizes : Nat
  resultOf : Nat
  output : Option Nat
  importObjectFact : Nat
  importPackageFact : Nat

instance : Inhabited HPass :=
  ⟨⟨default, 0, 0, 0, default, 0, 0, 0, Option.none, 0, 0⟩⟩

/-- `codegentest.Result` (lines 26-32). -/
structure HResult where
  dir : String
  pass : HPass
  facts : Nat
  err : Option String
  output : Option Nat

instance : Inhabited HResult := ⟨⟨"", default, 0, Option.none, Option.none⟩⟩

/-- Two-component `filepath.Join` on clean components. -/
def pathJoin (a b : String) : String :=
  if a = "" then b else if b = "" then a else a ++ "/" ++ b

/-- `filepath.ToSlash`: on a slash-separated platform (`Separator = '/'`,
as in the test environments the harness targets) it is the identity. -/
def toSlash (s : String) : String := s

/-- One engine step (modelled from the spec, §2 and §4.2: the engine
executes the converted descriptor once per unit, in order): obtain the
unit's sinks from the wrapper closure (whose captured factory is
`outputFunc`), write the generator's emitted text to each of them, and
record the wrapper's `outputs` map entry, if any. -/
def runStep (outputFunc : OutputSel) (emit : Pkg → String)
    (acc : List String × List (Pkg × Nat)) (u : EngineUnit) :
    List String × List (Pkg × Nat) :=
  let al := wrapAlloc acc.1 outputFunc u.pkg
  let wh2 := al.2.2.foldl (fun w i => heapWrite w i (emit u.pkg)) al.1
  (wh2, acc.2 ++ (match al.2.1 with
    | Option.some b => [(u.pkg, b)]
    | Option.none => []))

/-- Body of the result-assembly loop of `Run` (lines 57-78): the rebuilt
pass (lines 58-70) and the `Result` (lines 71-77) for one engine unit;
`Dir = filepath.Join(dir, "src", filepath.ToSlash(pkg.Path()))`, and both
the pass's `Output` and the result's `Output` are the Go map access
`outputs[pkg]`. -/
def assembleResult (gcopy : Generator) (dir : String)
    (outputs : List (Pkg × Nat)) (u : EngineUnit) : HResult :=
  { dir := pathJoin (pathJoin dir "src") (toSlash u.pkg.path),
    pass := { generator := gcopy, fset := u.fset, files := u.files,
              otherFiles := u.otherFiles, pkg := u.pkg,
              typesInfo := u.typesInfo, typesSizes := u.typesSizes,
              resultOf := u.resultOf, output := lookupPkg outputs u.pkg,
              importObjectFact := u.importObjectFact,
              importPackageFact := u.importPackageFact },
    facts := u.facts, err := u.err,
    output := lookupPkg outputs u.pkg }

/-- `codegentest.Run` (lines 39-81) over a generator heap.

Following the source: look the caller's generator up (`g`), remember its
sink factory (`outputFunc := g.Output`), make a private shallow copy and
install the capture wrapper on the copy only (`_g := *g; g = &_g;
g.Output = ...` — the caller's heap entry is never written); let the engine
process each unit in order (`runStep`); then assemble one `Result` per
engine unit, in the engine's order (`assembleResult`).  Returns the
results, the (unchanged) generator heap, and the final writer heap. -/
def runHarness (gh : List Generator) (gp : Nat) (dir : String)
    (units : List EngineUnit) (emit : Pkg → String) (wh0 : List String) :
    List HResult × List Generator × List String :=
  let g := gh.getD gp default
  let outputFunc := g.output
  let gcopy : Generator := { g with output := OutputSel.captureWrap outputFunc }
  let ex := units.foldl (runStep outputFunc emit) (wh0, [])
  (units.map (assembleResult gcopy dir ex.2), gh, ex.1)

/-! ## `codegentest.Golden` / `golden` (codegentest/codegentest.go lines 102-140)

`golden` observes three things about its `*Result` argument: `r.Dir`, the
generator name `r.Pass.Generator.Name`, and the captured text
`r.Output.String()`; `GResult` carries exactly those three observations.

The filesystem is a partial map from paths to contents, together with three
error oracles describing which paths `os.Create`, `io.Copy` and
`(*os.File).Close` would fail on — `ioutil.ReadFile` fails exactly on paths
with no content.  `cmp.Diff` is modelled by a diff that is empty exactly
when the two strings are equal and otherwise carries both sides.  `t.Fatal`
and `t.Errorf` become events; a fatal event aborts the surrounding
`Golden` loop, a mismatch does not. -/

/-- The three observations `golden` makes of a `Result`. -/
structure GResult where
  dir : String
  gname : String
  got : String
deriving DecidableEq

/-- Filesystem: contents plus error oracles for create/copy/close. -/
structure FSys where
  files : String → Option String
  createErr : String → Option String
  copyErr : String → Option String
  closeErr : String → Option String

/-- Test events: `fatal` models `t.Fatal`, `mismatch` models the
`t.Errorf` call carrying generator name, golden-file path and diff. -/
inductive GEvent where
  | fatal (msg : String) : GEvent
  | mismatch (gname : String) (fpath : String) (diff : String) : GEvent
deriving DecidableEq

/-- Model of `cmp.Diff want got`: empty exactly when equal, otherwise a
textual diff showing both sides. -/
def cmpDiff (want got : String) : String :=
  if want = got then "" else "- " ++ want ++ "\n+ " ++ got

/-- Golden-file path: `filepath.Join(r.Dir, fmt.Sprintf("%s.golden",
r.Pass.Generator.Name))`. -/
def goldenPath (r : GResult) : String :=
  pathJoin r.dir (r.gname ++ ".golden")

/-- Whether an event is a `t.Fatal`. -/
def isFatal : GEvent → Bool
  | GEvent.fatal _ => true
  | GEvent.mismatch _ _ _ => false

/-- Overwrite (or create) the file at `p` with `content`; oracles are
untouched. -/
def writeFileFS (fs : FSys) (p : String) (content : String) : FSys :=
  { fs with files := fun q => if q = p then Option.some content else fs.files q }

/-- `golden(t, r, update)` (lines 109-140): read the golden file (fatal on
error); if `update` is false compare via the diff and report a non-fatal
mismatch when it is nonempty; if `update` is true, `os.Create` (truncating
the file), `io.Copy` the captured text into it and `Close`, each I/O
failure being fatal.  Returns the emitted events and the final
filesystem. -/
def golden (fs : FSys) (r : GResult) (update : Bool) : List GEvent × FSys :=
  let fpath := goldenPath r
  match fs.files fpath with
  | Option.none => ([GEvent.fatal "unexpected error: read"], fs)
  | Option.some gf =>
    let got := r.got
    if update = false then
      (if cmpDiff gf got = "" then []
       else [GEvent.mismatch r.gname fpath (cmpDiff gf got)], fs)
    else
      match fs.createErr fpath with
      | Option.some _ => ([GEvent.fatal "unexpected error: create"], fs)
      | Option.none =>
        let fs1 := writeFileFS fs fpath ""
        match fs.copyErr fpath with
        | Option.some _ => ([GEvent.fatal "unexpected error: copy"], fs1)
        | Option.none =>
          let fs2 := writeFileFS fs1 fpath got
          match fs.closeErr fpath with
          | Option.some _ => ([GEvent.fatal "unexpected error: close"], fs2)
          | Option.none => ([], fs2)

/-- `Golden(t, results, update)` (lines 102-107): run `golden` on each
result in order; a fatal event (`t.Fatal` calls `runtime.Goexit`) aborts
the remaining iterations, a mismatch does not. -/
def goldenAll (fs : FSys) (rs : List GResult) (update : Bool) :
    List GEvent × FSys :=
  match rs with
  | [] => ([], fs)
  | r :: rest =>
    let res := golden fs r update
    if res.1.any isFatal then res
    else
      let res2 := goldenAll res.2 rest update
      (res.1 ++ res2.1, res2.2)

/-! ### Concrete fixtures for the harness claims -/

/-- Generator with no external sink. -/
def genNoSink : Generator :=
  { name := "gen", doc := "", runDespiteErrors := false,
    output := OutputSel.noOutput }

/-- Generator with an external sink factory: every package writes to the
caller-owned writer `0`. -/
def genExt : Generator :=
  { name := "gen", doc := "", runDespiteErrors := false,
    output := OutputSel.outputFn (fun _ => 0) }

/-- Engine unit for the single fixture package with import path `a`. -/
def unitA : EngineUnit :=
  { pkg := ⟨1, "a"⟩, fset := 10, files := 11, otherFiles := 12,
    typesInfo := 13, typesSizes := 14, resultOf := 15,
    importObjectFact := 16, importPackageFact := 17, facts := 18,
    err := Option.none }

/-- Concrete result for the golden-file runs: fixture directory `d`,
generator name `gen`, captured output `out`. -/
def resDemo : GResult := { dir := "d", gname := "gen", got := "out" }

/-- Filesystem with an existing golden file (stale content `old`) and no
I/O failures. -/
def fsGood : FSys :=
  { files := fun p => if p = "d/gen.golden" then Option.some "old" else Option.none,
    createErr := fun _ => Option.none,
    copyErr := fun _ => Option.none,
    closeErr := fun _ => Option.none }

/-- Empty filesystem (golden file missing), no I/O failures. -/
def fsMissing : FSys :=
  { files := fun _ => Option.none,
    createErr := fun _ => Option.none,
    copyErr := fun _ => Option.none,
    closeErr := fun _ => Option.none }

/-- Filesystem with an existing golden file on which `os.Create` fails. -/
def fsCreateFail : FSys :=
  { fsGood with createErr := fun _ => Option.some "boom" }

end Codegentest

/-! # Theorems -/

/-- Helper: `getD` through `map` at an in-range index. -/
theorem listGetDMap {α β : Type} (L : List α) (F : α → β) (a : α) (b : β)
    (i : Nat) (hi : i < L.length) :
    (L.map F).getD i b = F (L.getD i a) := by
  rw [List.getD_eq_getElem _ _ (by simpa using hi), List.getElem_map,
    List.getD_eq_getElem _ _ hi]

/-- Helper: the nonempty shape of the modelled diff. -/
theorem diffNonempty (x y : String) : "- " ++ x ++ "\n+ " ++ y ≠ "" := by
  intro hcon
  have h2 : ("- " ++ x ++ "\n+ " ++ y).data = "".data := congrArg String.data hcon
  simp [String.data_append] at h2

namespace Codegen

/-- C1: the claim — each wrapped prerequisite's Run produces the same
result and error as the corresponding original prerequisite's Run, with
zero diagnostics — fails on the code.  At the concrete failing input
(`genAB` with prerequisites `A` at heap index 0 and `B` at index 1), the
wrapped copy of `A` (heap index 2 after conversion) returns `B`'s result
value `2`, not `A`'s value `1`: the Go closure captures the loop variable
`i`, which at invocation time holds `len(Requires)-1`.  Diagnostic
suppression itself does work (the diagnostic log stays empty). -/
theorem toAnalyzer_loop_capture_bug :
    ((toAnalyzer [reqA, reqB] [genAB] 0 default).1.getD 2 default).run demoPass []
        = ([], Option.some 2, Option.none)
    ∧ reqA.run demoPass [] = (["diagA"], Option.some 1, Option.none)
    ∧ reqB.run demoPass [] = (["diagB"], Option.some 2, Option.none) := by
  refine ⟨?_, ?_, ?_⟩ <;> rfl

/-- C4: the analyzer returned by `ToAnalyzer` carries the generator's
`Name`, `Doc` and `RunDespiteErrors` and the rewritten `Requires` list
(fresh pointers to the copies appended at the end of the heap), and its
run callback builds a `Pass` from the engine-supplied per-unit fields plus
the output sink, sets the pass's generator to the converted generator
itself, calls the generator's `Run` on that pass, and returns `nil`
together with that `Run`'s error — never a non-nil result value. -/
theorem toAnalyzer_adapter_fields (h : List Analyzer) (gh : List Generator)
    (gp : Nat) (w : WState) (pass : APass) (l : List String) :
    (toAnalyzer h gh gp w).2.name = (gh.getD gp default).name
    ∧ (toAnalyzer h gh gp w).2.doc = (gh.getD gp default).doc
    ∧ (toAnalyzer h gh gp w).2.runDespiteErrors
        = (gh.getD gp default).runDespiteErrors
    ∧ (toAnalyzer h gh gp w).2.requires
        = (List.range (gh.getD gp default).requires.length).map
            (fun j => h.length + j)
    ∧ (toAnalyzer h gh gp w).2.run pass l
        = (l, Option.none,
            (gh.getD gp default).run
              { generator := gp, fset := pass.fset, files := pass.files,
                otherFiles := pass.otherFiles, pkg := pass.pkg,
                typesInfo := pass.typesInfo, typesSizes := pass.typesSizes,
                resultOf := pass.resultOf, output := w,
                importObjectFact := pass.importObjectFact,
                importPackageFact := pass.importPackageFact })
    ∧ ((toAnalyzer h gh gp w).2.run pass l).2.1 = Option.none :=
  ⟨rfl, rfl, rfl, rfl, rfl, rfl⟩

/-- Helper: the heap returned by `toAnalyzer` is the input heap with the
wrapped shallow copies of the direct prerequisites appended. -/
theorem toAnalyzerHeapEq (h : List Analyzer) (gh : List Generator)
    (gp : Nat) (w : WState) :
    (toAnalyzer h gh gp w).1
      = h ++ (List.range (gh.getD gp default).requires.length).map
          (fun k =>
            { h.getD ((gh.getD gp default).requires.getD k 0) default with
              run := fun pass l =>
                (h.getD ((gh.getD gp default).requires.getD
                    ((gh.getD gp default).requires.length - 1) 0) default).run
                  { pass with report := fun _ l2 => l2 } l }) := rfl

/-- C10: diagnostic suppression is not transitive — the copy made of the
`j`-th direct prerequisite shares its `requires` pointer list with the
original prerequisite, and every analyzer already in the heap (in
particular every prerequisite-of-a-prerequisite those shared pointers
reach) is left untouched by the conversion, keeping its original,
unsuppressed run callback. -/
theorem toAnalyzer_requires_shared (h : List Analyzer) (gh : List Generator)
    (gp j p : Nat) (w : WState)
    (hj : j < (gh.getD gp default).requires.length)
    (hp : p < h.length) :
    ((toAnalyzer h gh gp w).1.getD (h.length + j) default).requires
      = (h.getD ((gh.getD gp default).requires.getD j 0) default).requires
    ∧ (toAnalyzer h gh gp w).1.getD p default = h.getD p default
    ∧ ((toAnalyzer h gh gp w).1.getD p default).run = (h.getD p default).run := by
  rw [toAnalyzerHeapEq]
  refine ⟨?_, ?_, ?_⟩
  · rw [List.getD_append_right _ _ _ _ (Nat.le_add_right _ _),
      Nat.add_sub_cancel_left,
      listGetDMap (List.range (gh.getD gp default).requires.length) _ 0
        default j (by simpa using hj)]
    have hrange : (List.range (gh.getD gp default).requires.length).getD j 0
        = j := by
      rw [List.getD_eq_getElem _ _ (by simpa using hj)]
      simp
    rw [hrange]
  · rw [List.getD_append _ _ _ _ hp]
  · rw [List.getD_append _ _ _ _ hp]

/-- C9: `Pass.Print`, `Pass.Printf` and `Pass.Println` each issue exactly
one write of, respectively, the `fmt.Fprint` rendering, the formatted
expansion, and the rendered text plus one line terminator, to
`Pass.Output`; and a write is exact — the sink's content grows by exactly
the returned count of bytes, and on a `nil` error the count equals the
full rendered length with all bytes appended. -/
theorem pass_print_exact (p : Pass) (args : List FmtArg) (format : String)
    (w : WState) (s : List Char) :
    Pass.Print p args = wwrite p.output (renderPrint args).toList
    ∧ Pass.Printf p format args = wwrite p.output (renderPrintf format args).toList
    ∧ Pass.Println p args = wwrite p.output (renderPrintln args).toList
    ∧ (wwrite w s).1.content = w.content ++ s.take (wwrite w s).2.1
    ∧ ((wwrite w s).2.2 = Option.none →
        (wwrite w s).2.1 = s.length ∧ (wwrite w s).1.content = w.content ++ s) := by
  refine ⟨rfl, rfl, rfl, ?_, ?_⟩
  · rcases w with ⟨c, e⟩
    cases e with
    | none => simp [wwrite]
    | some k =>
      by_cases hk : s.length ≤ k
      · simp [wwrite, hk]
      · simp [wwrite, hk]
  · rcases w with ⟨c, e⟩
    cases e with
    | none => intro _; exact ⟨rfl, rfl⟩
    | some k =>
      by_cases hk : s.length ≤ k
      · intro _; simp [wwrite, hk]
      · intro hcon; simp [wwrite, hk] at hcon

/-- C9 witness: the theorem applied at a concrete pass and argument
list. -/
theorem pass_print_exact_witness :
    Pass.Print printDemoPass [FmtArg.str "hi", FmtArg.int 3]
      = wwrite printDemoPass.output
          (renderPrint [FmtArg.str "hi", FmtArg.int 3]).toList :=
  (pass_print_exact printDemoPass [FmtArg.str "hi", FmtArg.int 3] "x"
    default []).1

end Codegen

namespace Codegentest

/-- C2: at the failing input — a generator whose `Output` field supplies an
external sink (writer 0) — the harness writes the emitted bytes to both
the external sink and the fresh capture buffer (final writer heap
`["out", "out"]`), but the `outputs` map never receives an entry in that
branch, so the assembled `Result.Output` is `nil`, contradicting the claim
that it is non-nil and holds the emitted output. -/
theorem run_sink_factory_drops_buffer :
    ((runHarness [genExt] 0 "td" [unitA] (fun _ => "out") [""]).1.getD 0
        default).output = Option.none
    ∧ (runHarness [genExt] 0 "td" [unitA] (fun _ => "out") [""]).2.2
        = ["out", "out"] :=
  ⟨rfl, rfl⟩

/-- C3 counterexample: at the concrete input (fixture root `td`, unit
whose import path is `a`), the assembled `Result.Dir` is `td/src/a`, not
the fixture root joined directly with the slash-normalized import path
(`td/a`) as the claim states. -/
theorem run_dir_counterexample :
    ((runHarness [genNoSink] 0 "td" [unitA] (fun _ => "x") []).1.getD 0
        default).dir ≠ pathJoin "td" (toSlash unitA.pkg.path) := by
  decide

/-- C3 (amended): the harness returns one `Result` per engine unit, in the
engine's order; the `i`-th `Result`'s `Dir` is the fixture root joined
with `src` and the unit's slash-normalized import path, its `Facts` and
`Err` are the engine-returned facts and error for that unit, and its
`Pass` carries that unit's engine-returned data fields verbatim. -/
theorem run_results_assembly (gh : List Generator) (gp : Nat) (dir : String)
    (units : List EngineUnit) (emit : Pkg → String) (wh0 : List String)
    (i : Nat) (hi : i < units.length) :
    (runHarness gh gp dir units emit wh0).1.length = units.length
    ∧ ((runHarness gh gp dir units emit wh0).1.getD i default).dir
        = pathJoin (pathJoin dir "src") (toSlash (units.getD i default).pkg.path)
    ∧ ((runHarness gh gp dir units emit wh0).1.getD i default).facts
        = (units.getD i default).facts
    ∧ ((runHarness gh gp dir units emit wh0).1.getD i default).err
        = (units.getD i default).err
    ∧ ((runHarness gh gp dir units emit wh0).1.getD i default).pass.fset
        = (units.getD i default).fset
    ∧ ((runHarness gh gp dir units emit wh0).1.getD i default).pass.files
        = (units.getD i default).files
    ∧ ((runHarness gh gp dir units emit wh0).1.getD i default).pass.otherFiles
        = (units.getD i default).otherFiles
    ∧ ((runHarness gh gp dir units emit wh0).1.getD i default).pass.pkg
        = (units.getD i default).pkg
    ∧ ((runHarness gh gp dir units emit wh0).1.getD i default).pass.typesInfo
        = (units.getD i default).typesInfo
    ∧ ((runHarness gh gp dir units emit wh0).1.getD i default).pass.typesSizes
        = (units.getD i default).typesSizes
    ∧ ((runHarness gh gp dir units emit wh0).1.getD i default).pass.resultOf
        = (units.getD i default).resultOf
    ∧ ((runHarness gh gp dir units emit wh0).1.getD i default).pass.importObjectFact
        = (units.getD i default).importObjectFact
    ∧ ((runHarness gh gp dir units emit wh0).1.getD i default).pass.importPackageFact
        = (units.getD i default).importPackageFact := by
  have hmap : (runHarness gh gp dir units emit wh0).1.getD i default
      = assembleResult
          { gh.getD gp default with
            output := OutputSel.captureWrap (gh.getD gp default).output }
          dir
          (units.foldl (runStep (gh.getD gp default).output emit) (wh0, [])).2
          (units.getD i default) :=
    listGetDMap units _ default default i hi
  refine ⟨by simp [runHarness], ?_, ?_, ?_, ?_, ?_, ?_, ?_, ?_, ?_, ?_, ?_, ?_⟩
  all_goals rw [hmap]; rfl

/-- C3 witness: the amended theorem applied at the concrete single-unit
run. -/
theorem run_results_assembly_witness :
    ((runHarness [genNoSink] 0 "td" [unitA] (fun _ => "x") []).1.getD 0
        default).facts = (([unitA] : List EngineUnit).getD 0 default).facts :=
  (run_results_assembly [genNoSink] 0 "td" [unitA] (fun _ => "x") [] 0
    (by decide)).2.2.1

/-- C8: the harness leaves the caller's generator unmodified — it operates
on a private shallow copy, and in particular the caller's output-sink
selection field is unchanged after the run. -/
theorem run_preserves_caller_generator (gh : List Generator) (gp : Nat)
    (dir : String) (units : List EngineUnit) (emit : Pkg → String)
    (wh0 : List String) :
    (runHarness gh gp dir units emit wh0).2.1 = gh
    ∧ ((runHarness gh gp dir units emit wh0).2.1.getD gp default).output
        = (gh.getD gp default).output :=
  ⟨rfl, rfl⟩

/-- C5: with `update = false` and a readable golden file, the comparison
leaves the filesystem unchanged, the diff is empty exactly when the
captured output equals the golden content byte-for-byte, equality yields
no events, inequality yields exactly one non-fatal mismatch event carrying
the generator name, the golden file's path and the diff, and the
surrounding loop continues to the remaining results. -/
theorem golden_compare_exact (fs : FSys) (r : GResult) (rest : List GResult)
    (gf : String) (hf : fs.files (goldenPath r) = Option.some gf) :
    (golden fs r false).2 = fs
    ∧ (cmpDiff gf r.got = "" ↔ gf = r.got)
    ∧ (gf = r.got → (golden fs r false).1 = [])
    ∧ (gf ≠ r.got →
        (golden fs r false).1
          = [GEvent.mismatch r.gname (goldenPath r) (cmpDiff gf r.got)])
    ∧ (goldenAll fs (r :: rest) false).1
        = (golden fs r false).1 ++ (goldenAll fs rest false).1 := by
  have h1 : golden fs r false
      = (if cmpDiff gf r.got = "" then []
         else [GEvent.mismatch r.gname (goldenPath r) (cmpDiff gf r.got)], fs) := by
    simp [golden, hf]
  have hfat : ((golden fs r false).1.any isFatal) = false := by
    rw [h1]
    by_cases he : gf = r.got
    · simp [cmpDiff, he, isFatal]
    · simp [cmpDiff, he, isFatal, diffNonempty]
  refine ⟨by rw [h1], ?_, ?_, ?_, ?_⟩
  · by_cases he : gf = r.got
    · simp [cmpDiff, he]
    · simp [cmpDiff, he, diffNonempty]
  · intro he
    rw [h1]
    simp [cmpDiff, he]
  · intro he
    rw [h1]
    simp [cmpDiff, he, diffNonempty]
  · have h2 : (golden fs r false).2 = fs := by rw [h1]
    simp [goldenAll, hfat, h2]

/-- C5 witness: the theorem applied at a concrete filesystem with a stale
golden file, yielding exactly one mismatch event. -/
theorem golden_compare_exact_witness :
    fsGood.files (goldenPath resDemo) = Option.some "old"
    ∧ (golden fsGood resDemo false).1
        = [GEvent.mismatch resDemo.gname (goldenPath resDemo)
            (cmpDiff "old" resDemo.got)] :=
  ⟨by decide,
   (golden_compare_exact fsGood resDemo [] "old" (by decide)).2.2.2.1
     (by decide)⟩

/-- C6: an unreadable (in particular missing) golden file makes the
comparison fatal, regardless of `update`, halting the surrounding loop
and leaving the filesystem unchanged — so `update = true` does not
silently create the file; with `update = true` on an existing file and no
I/O failures the file's previous content is replaced entirely by the
captured output; and any create/copy/close failure during the overwrite
is fatal. -/
theorem golden_missing_and_update (r : GResult) :
    (∀ fs rest u, fs.files (goldenPath r) = Option.none →
       golden fs r u = ([GEvent.fatal "unexpected error: read"], fs)
       ∧ goldenAll fs (r :: rest) u
           = ([GEvent.fatal "unexpected error: read"], fs))
    ∧ (∀ fs gf, fs.files (goldenPath r) = Option.some gf →
       fs.createErr (goldenPath r) = Option.none →
       fs.copyErr (goldenPath r) = Option.none →
       fs.closeErr (goldenPath r) = Option.none →
       golden fs r true
         = ([], writeFileFS (writeFileFS fs (goldenPath r) "")
             (goldenPath r) r.got)
       ∧ (golden fs r true).2.files (goldenPath r) = Option.some r.got)
    ∧ (∀ fs gf, fs.files (goldenPath r) = Option.some gf →
       ((fs.createErr (goldenPath r)).isSome ∨ (fs.copyErr (goldenPath r)).isSome
         ∨ (fs.closeErr (goldenPath r)).isSome) →
       (golden fs r true).1.any isFatal = true) := by
  refine ⟨?_, ?_, ?_⟩
  · intro fs rest u hf
    have h1 : golden fs r u = ([GEvent.fatal "unexpected error: read"], fs) := by
      simp [golden, hf]
    exact ⟨h1, by simp [goldenAll, h1, isFatal]⟩
  · intro fs gf hf hc hw hcl
    have h1 : golden fs r true
        = ([], writeFileFS (writeFileFS fs (goldenPath r) "")
            (goldenPath r) r.got) := by
      simp [golden, hf, hc, hw, hcl]
    exact ⟨h1, by rw [h1]; simp [writeFileFS]⟩
  · intro fs gf hf hsome
    rcases hsome with hs | hs | hs
    · obtain ⟨e, he⟩ := Option.isSome_iff_exists.mp hs
      simp [golden, hf, he, isFatal]
    · obtain ⟨e, he⟩ := Option.isSome_iff_exists.mp hs
      cases hc : fs.createErr (goldenPath r) with
      | some e2 => simp [golden, hf, hc, isFatal]
      | none => simp [golden, hf, hc, he, isFatal]
    · obtain ⟨e, he⟩ := Option.isSome_iff_exists.mp hs
      cases hc : fs.createErr (goldenPath r) with
      | some e2 => simp [golden, hf, hc, isFatal]
      | none =>
        cases hw : fs.copyErr (goldenPath r) with
        | some e3 => simp [golden, hf, hc, hw, isFatal]
        | none => simp [golden, hf, hc, hw, he, isFatal]

/-- C6 witness: the theorem applied to the missing-file, clean-overwrite
and failing-create filesystems. -/
theorem golden_missing_and_update_witness :
    golden fsMissing resDemo true
        = ([GEvent.fatal "unexpected error: read"], fsMissing)
    ∧ (golden fsGood resDemo true).2.files (goldenPath resDemo)
        = Option.some resDemo.got
    ∧ (golden fsCreateFail resDemo true).1.any isFatal = true :=
  ⟨((golden_missing_and_update resDemo).1 fsMissing [] true rfl).1,
   ((golden_missing_and_update resDemo).2.1 fsGood "old" (by decide)
     rfl rfl rfl).2,
   (golden_missing_and_update resDemo).2.2 fsCreateFail "old" (by decide)
     (Or.inl (by decide))⟩

/-- C7: after an error-free `update = true` run on a readable golden file,
an immediate `update = false` rerun with everything unchanged reports no
events at all (in particular zero mismatches); and an `update = false`
run leaves the filesystem unchanged, so running it twice in a row yields
identical outcomes. -/
theorem golden_roundtrip_idempotent (fs : FSys) (r : GResult) (gf : String)
    (hf : fs.files (goldenPath r) = Option.some gf)
    (hc : fs.createErr (goldenPath r) = Option.none)
    (hw : fs.copyErr (goldenPath r) = Option.none)
    (hcl : fs.closeErr (goldenPath r) = Option.none) :
    (golden (golden fs r true).2 r false).1 = []
    ∧ golden (golden fs r false).2 r false = golden fs r false := by
  constructor
  · have h1 : (golden fs r true).2
        = writeFileFS (writeFileFS fs (goldenPath r) "") (goldenPath r) r.got := by
      simp [golden, hf, hc, hw, hcl]
    rw [h1]
    have h2 : (writeFileFS (writeFileFS fs (goldenPath r) "")
        (goldenPath r) r.got).files (goldenPath r) = Option.some r.got := by
      simp [writeFileFS]
    simp [golden, h2, cmpDiff]
  · have h3 : (golden fs r false).2 = fs := by
      simp [golden, hf]
    rw [h3]

/-- C7 witness: the theorem applied at the concrete stale-golden
filesystem. -/
theorem golden_roundtrip_idempotent_witness :
    (golden (golden fsGood resDemo true).2 resDemo false).1 = []
    ∧ golden (golden fsGood resDemo false).2 resDemo false
        = golden fsGood resDemo false :=
  golden_roundtrip_idempotent fsGood resDemo "old" (by decide) rfl rfl rfl

end Codegentest

namespace Codegen

/-- C10 witness: the sharing theorem applied at the concrete two-
prerequisite conversion. -/
theorem toAnalyzer_requires_shared_witness :
    ((toAnalyzer [reqA, reqB] [genAB] 0 default).1.getD
        (([reqA, reqB] : List Analyzer).length + 0) default).requires
      = ([reqA, reqB].getD
          (([genAB].getD 0 default).requires.getD 0 0) default).requires
    ∧ (toAnalyzer [reqA, reqB] [genAB] 0 default).1.getD 1 default
        = [reqA, reqB].getD 1 default
    ∧ ((toAnalyzer [reqA, reqB] [genAB] 0 default).1.getD 1 default).run
        = ([reqA, reqB].getD 1 default).run :=
  toAnalyzer_requires_shared [reqA, reqB] [genAB] 0 0 1 default
    (by decide) (by decide)

end Codegen
